import Mathlib

/-!
Verification of the CSPRNG-Exploration repository's core against its
natural-language specification.

The Go source is shallowly embedded:
* bytes are natural numbers `< 256`, byte slices are `List ℕ`;
* Go's `uint64` counter arithmetic is `ℕ` with explicit `% 2^64`;
* the external primitive HMAC-SHA256 (Go `crypto/hmac` + `crypto/sha256`)
  is an explicit function parameter `hm : List ℕ → List ℕ → List ℕ`
  (key → message → digest); the real primitive always returns 32 bytes,
  which theorems take as the hypothesis `∀ k m, (hm k m).length = 32`;
* network fetches (weather / market / latency probes) are external
  collaborators: their observed outcomes are passed in as parameters;
* a Go runtime panic is modelled as `Option.none`;
* `float64` arithmetic is modelled exactly: by `ℚ` where every operation
  performed is exact, by `ℝ` where `math.Log2`/`math.Erfc` occur, and by
  the small `GoFloat` type where the IEEE non-finite results (NaN from
  `0/0`) are the point being verified.
-/

/-- Embedding of `encoding/binary.BigEndian.PutUint64`: the 8 big-endian bytes of a
`uint64` counter value. -/
def be64 (c : ℕ) : List ℕ :=
  [c / 2 ^ 56 % 256, c / 2 ^ 48 % 256, c / 2 ^ 40 % 256, c / 2 ^ 32 % 256,
   c / 2 ^ 24 % 256, c / 2 ^ 16 % 256, c / 2 ^ 8 % 256, c % 256]

/-- The block-generation loop shared by `crypto_csprng.go`,
`multEntropy_prng.go` and `hybrid_prng.go` (`for generated < numBytes`):
the state is *not* changed between blocks; each block is
`HMAC(state, bigEndian(counter))`, truncated to the remaining byte count,
and the counter is incremented (`uint64` wrap-around) after each block.
Returns the produced bytes and the final counter.

The first argument is fuel bounding the number of iterations; it is an
embedding artifact: one byte per iteration is a lower bound whenever the
digest is nonempty, so fuel `remaining` is always enough (and if a digest
were empty the Go loop would never terminate; that dead case returns the
bytes produced so far). -/
def cryptoGenLoopF (hm : List ℕ → List ℕ → List ℕ) (state : List ℕ) :
    ℕ → ℕ → ℕ → List ℕ × ℕ
  | 0, counter, _ => ([], counter)
  | fuel + 1, counter, remaining =>
    if remaining = 0 then ([], counter)
    else
      let block := hm state (be64 counter)
      let toCopy := min block.length remaining
      if toCopy = 0 then ([], counter)
      else
        let rest := cryptoGenLoopF hm state fuel ((counter + 1) % 2 ^ 64) (remaining - toCopy)
        (block.take toCopy ++ rest.1, rest.2)

/-- The block loop of `crypto_csprng.go` / `multEntropy_prng.go` /
`hybrid_prng.go`, with the fuel instantiated to the requested length. -/
def cryptoGenLoop (hm : List ℕ → List ℕ → List ℕ) (state : List ℕ)
    (counter remaining : ℕ) : List ℕ × ℕ :=
  cryptoGenLoopF hm state remaining counter remaining

/-- The block-generation loop of `weather_prng.go` (and the
`multEntropyCSPRNG`/`HybridCSPRNG` drafts with reseed policy): identical
to `cryptoGenLoopF` except that after every block the state is re-keyed,
`state ← HMAC(state, block)`.  Returns bytes, final state, final counter. -/
def chainGenLoopF (hm : List ℕ → List ℕ → List ℕ) :
    ℕ → List ℕ → ℕ → ℕ → List ℕ × List ℕ × ℕ
  | 0, state, counter, _ => ([], state, counter)
  | fuel + 1, state, counter, remaining =>
    if remaining = 0 then ([], state, counter)
    else
      let block := hm state (be64 counter)
      let toCopy := min block.length remaining
      if toCopy = 0 then ([], state, counter)
      else
        let state' := hm state block
        let rest := chainGenLoopF hm fuel state' ((counter + 1) % 2 ^ 64) (remaining - toCopy)
        (block.take toCopy ++ rest.1, rest.2)

/-- The block loop of `weather_prng.go`, fuel instantiated. -/
def chainGenLoop (hm : List ℕ → List ℕ → List ℕ) (state : List ℕ)
    (counter remaining : ℕ) : List ℕ × List ℕ × ℕ :=
  chainGenLoopF hm remaining state counter remaining

/-- Go string bytes, for the literal `[]byte("update")` written by the
post-loop state update. -/
def strBytes (s : String) : List ℕ := s.toUTF8.toList.map (fun b => b.toNat)

namespace CryptoDraft

/-- Mutable state of `WeatherCSPRNG` in `crypto_csprng.go`: `state []byte`
and `counter uint64` (the mutex is the concurrency envelope, not data). -/
structure WState where
  state : List ℕ
  counter : ℕ
deriving DecidableEq, Repr

/-- Embedding of `WeatherCSPRNG.GenerateBytes` of `crypto_csprng.go` (lines 73–104):
run the block loop with a fixed state, then re-key the state with
`HMAC(state, "update" ‖ result[:32])`.  `result` has length *and
capacity* `numBytes`, so the slice expression `result[:32]` panics when
`numBytes < 32`; the panic is modelled as `none`. -/
def GenerateBytes (hm : List ℕ → List ℕ → List ℕ) (numBytes : ℕ)
    (w : WState) : Option (List ℕ × WState) :=
  let r := cryptoGenLoop hm w.state w.counter numBytes
  if numBytes < 32 then none
  else some (r.1, ⟨hm w.state (strBytes ("update") ++ r.1.take 32), r.2⟩)

end CryptoDraft

namespace MultDraft

/-- Mutable state of `multEntropyCSPRNG` in `multEntropy_prng.go`. -/
structure MState where
  state : List ℕ
  counter : ℕ
deriving DecidableEq, Repr

/-- Embedding of `multEntropyCSPRNG.GenerateBytes` of `multEntropy_prng.go`
(lines 89–120): block loop with fixed state, then
`state ← HMAC(state, "update" ‖ result[:32])`; `result[:32]` panics
(modelled `none`) when `numBytes < 32`. -/
def GenerateBytes (hm : List ℕ → List ℕ → List ℕ) (numBytes : ℕ)
    (c : MState) : Option (List ℕ × MState) :=
  let r := cryptoGenLoop hm c.state c.counter numBytes
  if numBytes < 32 then none
  else some (r.1, ⟨hm c.state (strBytes ("update") ++ r.1.take 32), r.2⟩)

end MultDraft

namespace HybridDraft

/-- Mutable state of `HybridCSPRNG` in `hybrid_prng.go`. -/
structure HState where
  state : List ℕ
  counter : ℕ
deriving DecidableEq, Repr

/-- Embedding of `HybridCSPRNG.GenerateBytes` of `hybrid_prng.go` (lines 68–101):
block loop with fixed state, then
`state ← HMAC(state, "update" ‖ result[:min(32, len(result))])` — the
clamped slice never panics. -/
def GenerateBytes (hm : List ℕ → List ℕ → List ℕ) (numBytes : ℕ)
    (h : HState) : List ℕ × HState :=
  let r := cryptoGenLoop hm h.state h.counter numBytes
  (r.1, ⟨hm h.state (strBytes ("update") ++ r.1.take (min 32 r.1.length)), r.2⟩)

end HybridDraft

/-- Embedding of `RESEED_INTERVAL = 10 * time.Minute`, in nanoseconds
(src/unnamed/part_003). -/
def RESEED_INTERVAL : ℕ := 10 * 60 * 1000000000

/-- Embedding of `RESEED_BYTE_INTERVAL = 500 * 1024 * 1024` bytes
(src/unnamed/part_003). -/
def RESEED_BYTE_INTERVAL : ℕ := 500 * 1024 * 1024

namespace WeatherDraft

/-- Mutable state of `WeatherCSPRNG` in `weather_prng.go`: `state`,
`counter uint64`, `bytesGenerated int`, `lastReseed time.Time`
(timestamps in nanoseconds). -/
structure WState where
  state : List ℕ
  counter : ℕ
  bytesGenerated : ℕ
  lastReseed : ℕ
deriving DecidableEq, Repr

/-- Embedding of `WeatherCSPRNG.reseed` of `weather_prng.go` (lines 38–48): mix the
fetched entropy digest into the state with `HMAC(state, entropy)`, stamp
`lastReseed`, zero `bytesGenerated`.  The weather fetch is an external
call; its resulting entropy bytes and the current time are parameters. -/
def reseed (hm : List ℕ → List ℕ → List ℕ) (entropy : List ℕ) (now : ℕ)
    (w : WState) : WState :=
  { state := hm w.state entropy
    counter := w.counter
    bytesGenerated := 0
    lastReseed := now }

/-- Embedding of `WeatherCSPRNG.GenerateBytes` of `weather_prng.go` (lines 67–100):
reseed first iff `time.Since(lastReseed) > RESEED_INTERVAL` or
`bytesGenerated > RESEED_BYTE_INTERVAL` (both strict), then run the
chained block loop (state re-keyed after every block), then
`bytesGenerated += numBytes`.  Also returns how many times `reseed` ran
during the call. -/
def GenerateBytes (hm : List ℕ → List ℕ → List ℕ) (entropy : List ℕ)
    (now : ℕ) (numBytes : ℕ) (w : WState) : List ℕ × WState × ℕ :=
  let trigger : Bool := decide (now - w.lastReseed > RESEED_INTERVAL) ||
    decide (w.bytesGenerated > RESEED_BYTE_INTERVAL)
  let w1 := if trigger then reseed hm entropy now w else w
  let r := chainGenLoop hm w1.state w1.counter numBytes
  (r.1,
   { state := r.2.1
     counter := r.2.2
     bytesGenerated := w1.bytesGenerated + numBytes
     lastReseed := w1.lastReseed },
   if trigger then 1 else 0)

end WeatherDraft

namespace MultSrc

/-- Embedding of `multEntropyCSPRNG.getWeather` of `multEntropy_prng.go`: the fetched
body on success, the fixed string `"weather_error"` on failure.  The
network outcome is a parameter (`none` = request error). -/
def getWeather (outcome : Option String) : String :=
  match outcome with
  | none => "weather_error"
  | some body => body

/-- Embedding of `multEntropyCSPRNG.getMarket`: body on success, `"market_error"` on
failure. -/
def getMarket (outcome : Option String) : String :=
  match outcome with
  | none => "market_error"
  | some body => body

/-- Embedding of `multEntropyCSPRNG.getNetwork`: the measured latency in nanoseconds
(decimal) on success, `"network_error"` on failure. -/
def getNetwork (outcome : Option ℤ) : String :=
  match outcome with
  | none => "network_error"
  | some d => toString d

/-- Embedding of `multEntropyCSPRNG.gatherEntropy` of `multEntropy_prng.go`
(lines 36–86): join the three source strings and the timestamp with `|`
and hash.  SHA-256 is the external primitive `sha : String → List ℕ`
(always 32 bytes). -/
def gatherEntropy (sha : String → List ℕ) (wo mo : Option String)
    (no : Option ℤ) (ts : ℤ) : List ℕ :=
  sha (getWeather wo ++ "|" ++ getMarket mo ++ "|" ++ getNetwork no ++ "|" ++ toString ts)

/-- Embedding of `NewmultEntropyCSPRNG`: the state before `c.state = c.gatherEntropy()`
runs is the zero value `nil`, modelled as `[]`. -/
def initialState : List ℕ := []

end MultSrc

namespace MainStats

/-- Embedding of `calculateChiSquare` of `main.go` (lines 29–46): byte-value counts,
`expected = len/256`, `Σ (observed-expected)²/expected` over the 256 byte
values; empty buffer → 0.  All the `float64` operations here are exact,
so the field is modelled over `ℚ`. -/
def calculateChiSquare (data : List ℕ) : ℚ :=
  if data.length = 0 then 0
  else
    let expected : ℚ := (data.length : ℚ) / 256
    ∑ i ∈ Finset.range 256,
      (((data.count i : ℚ) - expected) ^ 2) / expected

/-- Embedding of `calculateShannonEntropy` of `main.go` (lines 48–67):
`-Σ p·log2(p)` over byte values of nonzero frequency, `p = count/len`;
empty buffer → 0.  `math.Log2` forces the model into `ℝ`. -/
noncomputable def calculateShannonEntropy (data : List ℕ) : ℝ :=
  if data.length = 0 then 0
  else
    ∑ i ∈ Finset.range 256,
      if 0 < data.count i then
        -(((data.count i : ℝ) / data.length) *
          Real.logb 2 ((data.count i : ℝ) / data.length))
      else 0

/-- The per-bit contribution of one byte in
`nistFrequencyMonobitTest`: `+1` for each set bit `(b>>i)&1`, `-1` for
each clear bit, `i = 0..7`. -/
def bitSum (b : ℕ) : ℤ :=
  ∑ i ∈ Finset.range 8, if b / 2 ^ i % 2 = 1 then (1 : ℤ) else -1

/-- The statistic `s` accumulated by `nistFrequencyMonobitTest` over all
bits of the buffer. -/
def nistS (data : List ℕ) : ℤ := (data.map bitSum).sum

/-- The number of set bits of one byte (bits 0–7). -/
def oneBitsByte (b : ℕ) : ℕ :=
  ∑ i ∈ Finset.range 8, if b / 2 ^ i % 2 = 1 then 1 else 0

/-- The number of set bits of the whole buffer. -/
def oneBits (data : List ℕ) : ℕ := (data.map oneBitsByte).sum

/-- The complementary error function
`erfc x = (2/√π) ∫_x^∞ e^(-t²) dt` (Go `math.Erfc`). -/
noncomputable def erfc (x : ℝ) : ℝ :=
  (2 / Real.sqrt Real.pi) * ∫ t in Set.Ioi x, Real.exp (-t ^ 2)

/-- Embedding of `nistFrequencyMonobitTest` of `main.go` (lines 69–88): with
`n = 8·len` bits, `sObs = |s|/√n`, returns `erfc(sObs/√2)`; empty buffer
→ 0. -/
noncomputable def nistFrequencyMonobitTest (data : List ℕ) : ℝ :=
  let n := data.length * 8
  if n = 0 then 0
  else
    let sObs := |(nistS data : ℝ)| / Real.sqrt n
    erfc (sObs / Real.sqrt 2)

open scoped Classical in
/-- The NIST pass accounting of one `runBenchmark` iteration
(`main.go` lines 134–138): `passedNIST` is incremented exactly when
`nistPValue >= 0.01`. -/
noncomputable def benchStep (passedNIST : ℕ) (data : List ℕ) : ℕ :=
  if nistFrequencyMonobitTest data ≥ 0.01 then passedNIST + 1 else passedNIST

end MainStats

/-- A Go `float64` value as this program can produce it: an exact finite
value, `+∞`, or NaN.  (Negative infinity never arises: every non-finite
value in the embedded code comes from dividing a nonnegative numerator.)
Only the operations the benchmark performs are defined. -/
inductive GoFloat where
  | finite (q : ℚ)
  | inf
  | nan
deriving DecidableEq, Repr

instance : Inhabited GoFloat := ⟨GoFloat.finite 0⟩

/-- IEEE-754 division for the values occurring here: `x/0` is NaN when
`x = 0` and `+∞` when `x > 0`; finite/finite is exact. -/
def GoFloat.div (a b : ℚ) : GoFloat :=
  if b = 0 then (if a = 0 then GoFloat.nan else GoFloat.inf)
  else GoFloat.finite (a / b)

/-- IEEE-754 addition restricted to the values occurring here (no `-∞`,
so `∞ + ∞ = ∞`); NaN propagates. -/
def GoFloat.add : GoFloat → GoFloat → GoFloat
  | GoFloat.nan, _ => GoFloat.nan
  | _, GoFloat.nan => GoFloat.nan
  | GoFloat.inf, _ => GoFloat.inf
  | _, GoFloat.inf => GoFloat.inf
  | GoFloat.finite a, GoFloat.finite b => GoFloat.finite (a + b)

/-- IEEE-754 division of an accumulated `GoFloat` by a (positive) count;
NaN propagates, `∞/k = ∞`. -/
def GoFloat.divNat (x : GoFloat) (n : ℕ) : GoFloat :=
  match x with
  | GoFloat.nan => GoFloat.nan
  | GoFloat.inf => GoFloat.inf
  | GoFloat.finite a => GoFloat.div a (n : ℚ)

namespace Bench

/-- Embedding of `Analysis` of src/unnamed/part_002 (lines 49–58).  Integer fields
keep Go's `int`; the `float64` fields use the exact models described at
the top of this file; `Autocorrelation` is a `GoFloat` because its zero
denominator case (NaN) is under scrutiny. -/
structure Analysis where
  Length : ℕ
  Mean : ℚ
  ChiSquare : ℚ
  MinFreq : ℕ
  MaxFreq : ℕ
  FreqRange : ℕ
  ShannonEntropy : ℝ
  Autocorrelation : GoFloat

/-- The zero value `Analysis{}` returned for an empty buffer. -/
noncomputable def Analysis.zero : Analysis :=
  ⟨0, 0, 0, 0, 0, 0, 0, GoFloat.finite 0⟩

/-- The lag-1 match count of `basicAnalysis`: matches between `data[i]`
and `data[i-1]` for `i = 1 .. sampleSize-1`. -/
def adjMatches (data : List ℕ) (sampleSize : ℕ) : ℕ :=
  ((List.range (sampleSize - 1)).filter
    (fun i => data.getD (i + 1) 0 == data.getD i 0)).length

/-- Embedding of `basicAnalysis` of src/unnamed/part_002 (lines 102–175): empty
buffer → zero value; otherwise chi-square, mean, min/max frequency and
range, Shannon entropy, and lag-1 autocorrelation
`matches / (sampleSize-1)` over a sample capped at 50000 bytes.  The
min/max scan starts from `byteCounts[0]` exactly as the code does. -/
noncomputable def basicAnalysis (data : List ℕ) : Analysis :=
  if data.length = 0 then Analysis.zero
  else
    let counts := (List.range 256).map fun i => data.count i
    let expected : ℚ := (data.length : ℚ) / 256
    let chiSquare : ℚ :=
      ∑ i ∈ Finset.range 256, (((data.count i : ℚ) - expected) ^ 2) / expected
    let mean : ℚ := (data.sum : ℚ) / data.length
    let minFreq := counts.foldl min (data.count 0)
    let maxFreq := counts.foldl max (data.count 0)
    let shannon : ℝ :=
      ∑ i ∈ Finset.range 256,
        if 0 < data.count i then
          -(((data.count i : ℝ) / data.length) *
            Real.logb 2 ((data.count i : ℝ) / data.length))
        else 0
    let sampleSize := min data.length 50000
    let autocorr := GoFloat.div (adjMatches data sampleSize : ℚ)
      ((sampleSize : ℚ) - 1)
    { Length := data.length
      Mean := mean
      ChiSquare := chiSquare
      MinFreq := minFreq
      MaxFreq := maxFreq
      FreqRange := maxFreq - minFreq
      ShannonEntropy := shannon
      Autocorrelation := autocorr }

end Bench

namespace Bench

/-- Embedding of `TestResult` of src/unnamed/part_002 (lines 22–30).  Durations are
nanoseconds; `Error` is `none` for a nil Go error. -/
structure TestResult where
  Name : String
  TestRun : ℕ
  Duration : ℕ
  Throughput : ℚ
  analysis : Analysis
  Filename : String
  Error : Option String

/-- Embedding of `performanceTest` of src/unnamed/part_002 (lines 84–99): on
generator failure return the error; on success clamp the measured
duration to at least one microsecond and compute the throughput in
MB/s.  The generator call's outcome and its wall-clock duration are
parameters. -/
def performanceTest (outcome : Except String (List ℕ)) (rawDuration : ℕ) :
    Except String (List ℕ × ℕ × ℚ) :=
  match outcome with
  | Except.error e => Except.error e
  | Except.ok data =>
    let duration := if rawDuration < 1000 then 1000 else rawDuration
    let throughputMBs : ℚ :=
      (data.length : ℚ) / ((duration : ℚ) / 1000000000) / (1024 * 1024)
    Except.ok (data, duration, throughputMBs)

/-- The retry loop of `runSingleTest`
(`for attempt := 0; attempt <= maxRetries; attempt++`): try the attempt;
on success stop; on failure, if `attempt < maxRetries`, sleep
`(attempt+1) * 100ms` and retry.  Returns the final outcome and the list
of backoff sleeps (in milliseconds).  The remaining-iteration count
drives the structural recursion; called with `maxRetries + 1 - attempt`
iterations left, the base case is dead code. -/
def retryLoop (oracle : ℕ → Except String (List ℕ × ℕ × ℚ))
    (maxRetries : ℕ) : ℕ → ℕ → Except String (List ℕ × ℕ × ℚ) × List ℕ
  | _, 0 => (Except.error (""), [])
  | attempt, k + 1 =>
    match oracle attempt with
    | Except.ok v => (Except.ok v, [])
    | Except.error e =>
      if attempt < maxRetries then
        let rest := retryLoop oracle maxRetries (attempt + 1) k
        (rest.1, (attempt + 1) * 100 :: rest.2)
      else (Except.error e, [])

/-- The sample filename `runSingleTest` formats for a trial. -/
def sampleFilename (name : String) (testRun : ℕ) : String :=
  "output/" ++ (name.replace (" ") ("_")).toLower ++ "_sample_run" ++
    toString testRun ++ ".bin"

/-- Embedding of `runSingleTest` of src/unnamed/part_002 (lines 187–237), with the
per-attempt generator outcome and measured duration supplied as oracles
(`attempts a` is the result of the generator call on attempt `a`,
`durations a` its wall-clock time): run the retry loop
(`maxRetries = 2`), then — in the deferred block, which always runs —
build the `TestResult` (zero-value analysis when no data was produced),
send it to the results channel and increment the progress tracker.
Returns the `TestResult` delivered to the channel, the backoff sleeps
in milliseconds, and the number of tracker increments. -/
noncomputable def runSingleTest (genName : String)
    (attempts : ℕ → Except String (List ℕ)) (durations : ℕ → ℕ)
    (testRun : ℕ) : TestResult × List ℕ × ℕ :=
  let r := retryLoop (fun a => performanceTest (attempts a) (durations a)) 2 0 3
  match r.1 with
  | Except.ok (data, duration, throughput) =>
    ({ Name := genName, TestRun := testRun, Duration := duration,
       Throughput := throughput, analysis := basicAnalysis data,
       Filename := sampleFilename genName testRun, Error := none },
     r.2, 1)
  | Except.error e =>
    ({ Name := genName, TestRun := testRun, Duration := 0,
       Throughput := 0, analysis := Analysis.zero,
       Filename := sampleFilename genName testRun, Error := some e },
     r.2, 1)

/-- Embedding of `AggregatedResult` of src/unnamed/part_002 (lines 33–46). -/
structure AggregatedResult where
  Name : String
  TotalTests : ℕ
  SuccessfulTests : ℕ
  FailedTests : ℕ
  AvgDuration : ℕ
  MinDuration : ℕ
  MaxDuration : ℕ
  AvgThroughput : ℚ
  MinThroughput : ℚ
  MaxThroughput : ℚ
  AvgAnalysis : Analysis
  TotalDataGenerated : ℕ

/-- The fresh accumulator `aggregateResults` creates the first time a
generator name appears: `MinDuration = time.Hour` (in ns),
`MinThroughput = 1e9`, everything else the zero value. -/
noncomputable def aggInit (name : String) : AggregatedResult :=
  { Name := name
    TotalTests := 0
    SuccessfulTests := 0
    FailedTests := 0
    AvgDuration := 0
    MinDuration := 3600 * 1000000000
    MaxDuration := 0
    AvgThroughput := 0
    MinThroughput := 1000000000
    MaxThroughput := 0
    AvgAnalysis := Analysis.zero
    TotalDataGenerated := 0 }

/-- One iteration of the first pass of `aggregateResults` (lines
256–278): bump `TotalTests`; on success bump `SuccessfulTests`,
`TotalDataGenerated` and the min/max duration and throughput; on error
bump `FailedTests`. -/
def aggStep (agg : AggregatedResult) (r : TestResult) : AggregatedResult :=
  let agg := { agg with TotalTests := agg.TotalTests + 1 }
  match r.Error with
  | none =>
    { agg with
      SuccessfulTests := agg.SuccessfulTests + 1
      TotalDataGenerated := agg.TotalDataGenerated + r.analysis.Length
      MinDuration := if r.Duration < agg.MinDuration then r.Duration else agg.MinDuration
      MaxDuration := if r.Duration > agg.MaxDuration then r.Duration else agg.MaxDuration
      MinThroughput := if r.Throughput < agg.MinThroughput then r.Throughput else agg.MinThroughput
      MaxThroughput := if r.Throughput > agg.MaxThroughput then r.Throughput else agg.MaxThroughput }
  | some _ => { agg with FailedTests := agg.FailedTests + 1 }

/-- Lookup in the name-keyed Go map, modelled as an association list
with unique keys (first match wins). -/
def lookupA : List (String × AggregatedResult) → String → Option AggregatedResult
  | [], _ => none
  | (k', v) :: t, k => if k' = k then some v else lookupA t k

/-- Map update `aggregated[name] = agg`: replace the existing entry for
the key or append a new one. -/
def insertA : List (String × AggregatedResult) → String → AggregatedResult →
    List (String × AggregatedResult)
  | [], k, v => [(k, v)]
  | (k', v') :: t, k, v =>
    if k' = k then (k, v) :: t else (k', v') :: insertA t k v

/-- The first pass of `aggregateResults` (lines 243–281): fold the
results, looking each one's generator entry up (or creating it) and
applying `aggStep`. -/
noncomputable def aggPass1 (results : List TestResult) :
    List (String × AggregatedResult) :=
  results.foldl
    (fun m r => insertA m r.Name (aggStep ((lookupA m r.Name).getD (aggInit r.Name)) r))
    []

/-- The totals the second pass accumulates over the successful results
of one generator (lines 290–305), and the resulting averages
(lines 307–319): Go `int` division for the frequency fields, exact
division for the rest, `GoFloat` accumulation/division for
`Autocorrelation`.  The `Length` field of the averaged `Analysis` is
left at its zero value, exactly as the Go struct literal omits it. -/
noncomputable def averageFor (results : List TestResult) (name : String)
    (agg : AggregatedResult) : AggregatedResult :=
  if agg.SuccessfulTests > 0 then
    let succ := results.filter (fun r => r.Name == name && r.Error.isNone)
    let successCount := succ.length
    if successCount > 0 then
      { agg with
        AvgDuration := (succ.map (fun r => r.Duration)).sum / successCount
        AvgThroughput := (succ.map (fun r => r.Throughput)).sum / successCount
        AvgAnalysis :=
          { Length := 0
            Mean := (succ.map (fun r => r.analysis.Mean)).sum / successCount
            ChiSquare := (succ.map (fun r => r.analysis.ChiSquare)).sum / successCount
            MinFreq := (succ.map (fun r => r.analysis.MinFreq)).sum / successCount
            MaxFreq := (succ.map (fun r => r.analysis.MaxFreq)).sum / successCount
            FreqRange := (succ.map (fun r => r.analysis.FreqRange)).sum / successCount
            ShannonEntropy := (succ.map (fun r => r.analysis.ShannonEntropy)).sum / successCount
            Autocorrelation :=
              GoFloat.divNat
                ((succ.map (fun r => r.analysis.Autocorrelation)).foldl
                  GoFloat.add (GoFloat.finite 0)) successCount } }
    else agg
  else agg

/-- Embedding of `aggregateResults` of src/unnamed/part_002 (lines 240–325): the
grouping pass followed by the averaging pass over each entry (averages
computed only when `SuccessfulTests > 0`). -/
noncomputable def aggregateResults (results : List TestResult) :
    List (String × AggregatedResult) :=
  (aggPass1 results).map (fun p => (p.1, averageFor results p.1 p.2))

end Bench

/-- A concrete stand-in for the 32-byte digest primitive, used to
instantiate the abstract `hm` parameter in witnesses and
counterexamples: digest = `(k₀ + m₀ + 1) mod 256` followed by 31 zero
bytes. -/
def hmC (k m : List ℕ) : List ℕ :=
  (k.headD 0 + m.headD 0 + 1) % 256 :: List.replicate 31 0

/-- A concrete always-failed trial record, used to instantiate C9's
aggregation theorem in its witness. -/
noncomputable def failTR : Bench.TestResult :=
  { Name := "G", TestRun := 1, Duration := 0, Throughput := 0,
    analysis := Bench.Analysis.zero, Filename := "f", Error := some ("boom") }

/-- The stand-in `hmC` always returns 32 bytes. -/
theorem hmC_length (k m : List ℕ) : (hmC k m).length = 32 := by
  simp [hmC]

theorem cryptoGenLoopF_length (hm : List ℕ → List ℕ → List ℕ)
    (hlen : ∀ k m, (hm k m).length = 32) (state : List ℕ) :
    ∀ fuel counter remaining, remaining ≤ fuel →
      ((cryptoGenLoopF hm state fuel counter remaining).1).length = remaining := by
  intro fuel
  induction fuel with
  | zero =>
    intro c r hr
    have h0 : r = 0 := Nat.le_zero.mp hr
    subst h0; rfl
  | succ n ih =>
    intro c r hr
    by_cases hr0 : r = 0
    · subst hr0; simp [cryptoGenLoopF]
    · have hb := hlen state (be64 c)
      have ht0 : ¬ min (hm state (be64 c)).length r = 0 := by rw [hb]; omega
      have hrec := ih ((c + 1) % 2 ^ 64) (r - min (hm state (be64 c)).length r)
        (by rw [hb]; omega)
      simp only [cryptoGenLoopF, if_neg hr0, if_neg ht0, List.length_append,
        List.length_take, hrec]
      rw [hb]
      omega

theorem chainGenLoopF_length (hm : List ℕ → List ℕ → List ℕ)
    (hlen : ∀ k m, (hm k m).length = 32) :
    ∀ fuel state counter remaining, remaining ≤ fuel →
      ((chainGenLoopF hm fuel state counter remaining).1).length = remaining := by
  intro fuel
  induction fuel with
  | zero =>
    intro s c r hr
    have h0 : r = 0 := Nat.le_zero.mp hr
    subst h0; rfl
  | succ n ih =>
    intro s c r hr
    by_cases hr0 : r = 0
    · subst hr0; simp [chainGenLoopF]
    · have hb := hlen s (be64 c)
      have ht0 : ¬ min (hm s (be64 c)).length r = 0 := by rw [hb]; omega
      have hrec := ih (hm s (hm s (be64 c))) ((c + 1) % 2 ^ 64)
        (r - min (hm s (be64 c)).length r) (by rw [hb]; omega)
      simp only [chainGenLoopF, if_neg hr0, if_neg ht0, List.length_append,
        List.length_take, hrec]
      rw [hb]
      omega

/-- C1.  For every `n ≥ 32` the `crypto_csprng.go` WeatherCSPRNG draft and
`multEntropyCSPRNG` return exactly `n` bytes, and `HybridCSPRNG` does so
for every `n`; but for every `n < 32` the first two panic on the slice
expression `result[:32]` (modelled as `none`), so the claim that
`GenerateBytes(n)` never fails or panics for all non-negative `n` is
violated by the code. -/
theorem C1_generate_bytes_length
    (hm : List ℕ → List ℕ → List ℕ) (hlen : ∀ k m, (hm k m).length = 32)
    (n : ℕ) (w : CryptoDraft.WState) (c : MultDraft.MState)
    (h : HybridDraft.HState) :
    (HybridDraft.GenerateBytes hm n h).1.length = n ∧
    (32 ≤ n →
      ∃ out w', CryptoDraft.GenerateBytes hm n w = some (out, w') ∧ out.length = n) ∧
    (32 ≤ n →
      ∃ out c', MultDraft.GenerateBytes hm n c = some (out, c') ∧ out.length = n) ∧
    (n < 32 → CryptoDraft.GenerateBytes hm n w = none ∧
      MultDraft.GenerateBytes hm n c = none) := by
  have hloopW := cryptoGenLoopF_length hm hlen w.state n w.counter n le_rfl
  have hloopC := cryptoGenLoopF_length hm hlen c.state n c.counter n le_rfl
  have hloopH := cryptoGenLoopF_length hm hlen h.state n h.counter n le_rfl
  refine ⟨?_, ?_, ?_, ?_⟩
  · simpa [HybridDraft.GenerateBytes, cryptoGenLoop] using hloopH
  · intro h32
    refine ⟨(cryptoGenLoop hm w.state w.counter n).1,
      ⟨hm w.state (strBytes ("update") ++ (cryptoGenLoop hm w.state w.counter n).1.take 32),
       (cryptoGenLoop hm w.state w.counter n).2⟩, ?_, ?_⟩
    · simp [CryptoDraft.GenerateBytes, Nat.not_lt.mpr h32]
    · simpa [cryptoGenLoop] using hloopW
  · intro h32
    refine ⟨(cryptoGenLoop hm c.state c.counter n).1,
      ⟨hm c.state (strBytes ("update") ++ (cryptoGenLoop hm c.state c.counter n).1.take 32),
       (cryptoGenLoop hm c.state c.counter n).2⟩, ?_, ?_⟩
    · simp [MultDraft.GenerateBytes, Nat.not_lt.mpr h32]
    · simpa [cryptoGenLoop] using hloopC
  · intro hlt
    exact ⟨by simp [CryptoDraft.GenerateBytes, hlt], by simp [MultDraft.GenerateBytes, hlt]⟩

/-- Witness for C1 at a concrete digest function, request size and
states. -/
theorem C1_generate_bytes_length_witness :
    (∀ k m, (hmC k m).length = 32) ∧
    ((HybridDraft.GenerateBytes hmC 40 ⟨List.replicate 32 0, 0⟩).1.length = 40 ∧
     (32 ≤ 40 →
       ∃ out w', CryptoDraft.GenerateBytes hmC 40 ⟨List.replicate 32 0, 0⟩ = some (out, w') ∧
         out.length = 40) ∧
     (32 ≤ 40 →
       ∃ out c', MultDraft.GenerateBytes hmC 40 ⟨List.replicate 32 0, 0⟩ = some (out, c') ∧
         out.length = 40) ∧
     (40 < 32 → CryptoDraft.GenerateBytes hmC 40 ⟨List.replicate 32 0, 0⟩ = none ∧
       MultDraft.GenerateBytes hmC 40 ⟨List.replicate 32 0, 0⟩ = none)) :=
  ⟨hmC_length,
   C1_generate_bytes_length hmC hmC_length 40 ⟨List.replicate 32 0, 0⟩
     ⟨List.replicate 32 0, 0⟩ ⟨List.replicate 32 0, 0⟩⟩

/-- C1, the failing input: at `numBytes = 1` (any value below 32) the
`crypto_csprng.go` WeatherCSPRNG draft and `multEntropyCSPRNG` panic
(`result[:32]` with capacity 1), modelled as `none`. -/
theorem C1_panic_below_32 :
    CryptoDraft.GenerateBytes hmC 1 ⟨List.replicate 32 0, 0⟩ = none ∧
    MultDraft.GenerateBytes hmC 1 ⟨List.replicate 32 0, 0⟩ = none := by
  constructor <;> decide

/-- C2 is false as stated: `reseed` in `weather_prng.go` does not touch
the counter; with counter 5 before the call it is still 5 (≠ 0) after. -/
theorem C2_counterexample :
    (WeatherDraft.reseed hmC [1, 2, 3] 999 ⟨List.replicate 32 0, 5, 7, 0⟩).counter ≠ 0 := by
  decide

/-- C2, as amended: after `reseed()` returns, `bytesGenerated`
(`bytesSinceReseed`) is 0 and `lastReseed` is the reseed time, but the
counter is left unchanged — `reseed` never resets it. -/
theorem C2_reseed_state (hm : List ℕ → List ℕ → List ℕ)
    (entropy : List ℕ) (now : ℕ) (w : WeatherDraft.WState) :
    (WeatherDraft.reseed hm entropy now w).bytesGenerated = 0 ∧
    (WeatherDraft.reseed hm entropy now w).counter = w.counter ∧
    (WeatherDraft.reseed hm entropy now w).lastReseed = now ∧
    (WeatherDraft.reseed hm entropy now w).state = hm w.state entropy :=
  ⟨rfl, rfl, rfl, rfl⟩

/-- C10.  `basicAnalysis` on a buffer of exactly one byte divides
`matches = 0` by `sampleSize - 1 = 0`, yielding IEEE NaN in the
`Autocorrelation` field; the division-by-zero guard only catches the
empty buffer, whose zero-value `Analysis` carries autocorrelation 0. -/
theorem C10_autocorrelation_nan (b : ℕ) :
    (Bench.basicAnalysis [b]).Autocorrelation = GoFloat.nan ∧
    (Bench.basicAnalysis []).Autocorrelation = GoFloat.finite 0 := by
  constructor
  · simp [Bench.basicAnalysis, Bench.adjMatches, GoFloat.div]
  · simp [Bench.basicAnalysis, Bench.Analysis.zero]

/-- C3 is false at the boundary: with `bytesGenerated` exactly equal to
the 500 MiB budget (and the time trigger quiet), the next
`GenerateBytes` call performs no reseed at all — the code's trigger is
the strict comparison `bytesGenerated > RESEED_BYTE_INTERVAL`, not `≥`. -/
theorem C3_counterexample :
    ¬ ((WeatherDraft.GenerateBytes hmC [9] 1000 5
        ⟨List.replicate 32 0, 0, RESEED_BYTE_INTERVAL, 1000⟩).2.2 = 1) := by
  decide

/-- C3, as amended: whenever `bytesGenerated` strictly exceeds the
500 MiB budget, the next `GenerateBytes` call performs exactly one
reseed before producing output; the reseed itself sets `bytesGenerated`
to 0, so after the call it equals just the bytes of this call. -/
theorem C3_reseed_trigger (hm : List ℕ → List ℕ → List ℕ)
    (entropy : List ℕ) (now n : ℕ) (w : WeatherDraft.WState)
    (hbyte : w.bytesGenerated > RESEED_BYTE_INTERVAL) :
    (WeatherDraft.GenerateBytes hm entropy now n w).2.2 = 1 ∧
    (WeatherDraft.reseed hm entropy now w).bytesGenerated = 0 ∧
    (WeatherDraft.GenerateBytes hm entropy now n w).2.1.bytesGenerated = n := by
  have htrig : (decide (now - w.lastReseed > RESEED_INTERVAL) ||
      decide (w.bytesGenerated > RESEED_BYTE_INTERVAL)) = true := by
    simp [hbyte]
  refine ⟨?_, rfl, ?_⟩
  · simp [WeatherDraft.GenerateBytes, htrig]
  · simp [WeatherDraft.GenerateBytes, htrig, WeatherDraft.reseed]

/-- Witness for C3 at a concrete over-budget state. -/
theorem C3_reseed_trigger_witness :
    (RESEED_BYTE_INTERVAL + 1 > RESEED_BYTE_INTERVAL) ∧
    ((WeatherDraft.GenerateBytes hmC [9] 1000 5
        ⟨List.replicate 32 0, 0, RESEED_BYTE_INTERVAL + 1, 1000⟩).2.2 = 1 ∧
     (WeatherDraft.reseed hmC [9] 1000
        ⟨List.replicate 32 0, 0, RESEED_BYTE_INTERVAL + 1, 1000⟩).bytesGenerated = 0 ∧
     (WeatherDraft.GenerateBytes hmC [9] 1000 5
        ⟨List.replicate 32 0, 0, RESEED_BYTE_INTERVAL + 1, 1000⟩).2.1.bytesGenerated = 5) :=
  ⟨by decide,
   C3_reseed_trigger hmC [9] 1000 5 ⟨List.replicate 32 0, 0, RESEED_BYTE_INTERVAL + 1, 1000⟩
     (by decide)⟩

theorem cryptoGenLoopF_take32 (hm : List ℕ → List ℕ → List ℕ)
    (hlen : ∀ k m, (hm k m).length = 32) (state : List ℕ)
    (fuel counter remaining : ℕ) (h32 : 32 ≤ remaining) (hfuel : remaining ≤ fuel) :
    (cryptoGenLoopF hm state fuel counter remaining).1.take 32 = hm state (be64 counter) := by
  obtain ⟨n, rfl⟩ : ∃ n, fuel = n + 1 := ⟨fuel - 1, by omega⟩
  have hb := hlen state (be64 counter)
  have hr0 : ¬ remaining = 0 := by omega
  have ht0 : ¬ min (hm state (be64 counter)).length remaining = 0 := by rw [hb]; omega
  have hmin : min (hm state (be64 counter)).length remaining = 32 := by rw [hb]; omega
  have h32ne : ¬ (32 : ℕ) = 0 := by norm_num
  simp only [cryptoGenLoopF, if_neg hr0, if_neg ht0, hmin, if_neg h32ne]
  rw [List.take_append_of_le_length (by simp [hb]),
    List.take_take, min_self, List.take_of_length_le (le_of_eq hb)]

theorem chainGenLoopF_take32 (hm : List ℕ → List ℕ → List ℕ)
    (hlen : ∀ k m, (hm k m).length = 32) (state : List ℕ)
    (fuel counter remaining : ℕ) (h32 : 32 ≤ remaining) (hfuel : remaining ≤ fuel) :
    (chainGenLoopF hm fuel state counter remaining).1.take 32 = hm state (be64 counter) := by
  obtain ⟨n, rfl⟩ : ∃ n, fuel = n + 1 := ⟨fuel - 1, by omega⟩
  have hb := hlen state (be64 counter)
  have hr0 : ¬ remaining = 0 := by omega
  have ht0 : ¬ min (hm state (be64 counter)).length remaining = 0 := by rw [hb]; omega
  have hmin : min (hm state (be64 counter)).length remaining = 32 := by rw [hb]; omega
  have h32ne : ¬ (32 : ℕ) = 0 := by norm_num
  simp only [chainGenLoopF, if_neg hr0, if_neg ht0, hmin, if_neg h32ne]
  rw [List.take_append_of_le_length (by simp [hb]),
    List.take_take, min_self, List.take_of_length_le (le_of_eq hb)]

/-- C4 is false as stated: started from the same state (32 zero bytes)
and counter 0, with no reseed trigger firing, at `n = 33` the
`crypto_csprng.go` draft and the `weather_prng.go` draft produce
different bytes — the former keeps the state fixed across blocks, the
latter re-keys it after every block, so the streams diverge from the
second block on. -/
theorem C4_counterexample :
    (CryptoDraft.GenerateBytes hmC 33 ⟨List.replicate 32 0, 0⟩).map Prod.fst ≠
      some (WeatherDraft.GenerateBytes hmC [] 0 33 ⟨List.replicate 32 0, 0, 0, 0⟩).1 := by
  decide

/-- C4, as amended: the two WeatherCSPRNG drafts agree only on the first
block — started from the same state and counter, with no reseed trigger
firing and `n ≥ 32` (below 32 the `crypto_csprng.go` draft panics), the
first 32 bytes of both outputs equal `HMAC(state, bigEndian(counter))`;
beyond them the outputs diverge (see the counterexample). -/
theorem C4_first_block_agreement (hm : List ℕ → List ℕ → List ℕ)
    (hlen : ∀ k m, (hm k m).length = 32) (s : List ℕ)
    (c n bg lr now : ℕ) (entropy : List ℕ)
    (hn : 32 ≤ n)
    (htime : ¬ now - lr > RESEED_INTERVAL)
    (hbyte : ¬ bg > RESEED_BYTE_INTERVAL) :
    ∃ out w', CryptoDraft.GenerateBytes hm n ⟨s, c⟩ = some (out, w') ∧
      out.take 32 = hm s (be64 c) ∧
      (WeatherDraft.GenerateBytes hm entropy now n ⟨s, c, bg, lr⟩).1.take 32 =
        hm s (be64 c) := by
  have htrig : (decide (now - lr > RESEED_INTERVAL) ||
      decide (bg > RESEED_BYTE_INTERVAL)) = false := by
    simp [htime, hbyte]
  refine ⟨(cryptoGenLoop hm s c n).1,
    ⟨hm s (strBytes ("update") ++ (cryptoGenLoop hm s c n).1.take 32),
     (cryptoGenLoop hm s c n).2⟩, ?_, ?_, ?_⟩
  · simp [CryptoDraft.GenerateBytes, Nat.not_lt.mpr hn]
  · exact cryptoGenLoopF_take32 hm hlen s n c n hn le_rfl
  · have := chainGenLoopF_take32 hm hlen s n c n hn le_rfl
    simp only [WeatherDraft.GenerateBytes, htrig, Bool.false_eq_true, if_false,
      chainGenLoop]
    exact this

/-- Witness for C4's amended statement at concrete inputs. -/
theorem C4_first_block_agreement_witness :
    ((∀ k m, (hmC k m).length = 32) ∧ 32 ≤ 40 ∧
      ¬ (5 : ℕ) - 5 > RESEED_INTERVAL ∧ ¬ (0 : ℕ) > RESEED_BYTE_INTERVAL) ∧
    (∃ out w', CryptoDraft.GenerateBytes hmC 40 ⟨List.replicate 32 0, 7⟩ = some (out, w') ∧
      out.take 32 = hmC (List.replicate 32 0) (be64 7) ∧
      (WeatherDraft.GenerateBytes hmC [] 5 40 ⟨List.replicate 32 0, 7, 0, 5⟩).1.take 32 =
        hmC (List.replicate 32 0) (be64 7)) :=
  ⟨⟨hmC_length, by decide, by decide, by decide⟩,
   C4_first_block_agreement hmC hmC_length (List.replicate 32 0) 7 40 0 5 5 []
     (by decide) (by decide) (by decide)⟩

/-- C5.  When all three entropy sources fail, `gatherEntropy` of
`multEntropy_prng.go` still completes without surfacing an error: it
hashes the fixed fallback strings `weather_error`, `market_error`,
`network_error` joined with the timestamp, and the resulting 32-byte
seed differs from the previous seed (the constructor's prior state is
the empty `nil` slice). -/
theorem C5_all_sources_fail (sha : String → List ℕ)
    (hlen : ∀ s, (sha s).length = 32) (ts : ℤ) :
    MultSrc.gatherEntropy sha none none none ts =
      sha ("weather_error|market_error|network_error|" ++ toString ts) ∧
    MultSrc.gatherEntropy sha none none none ts ≠ MultSrc.initialState := by
  have hstr : MultSrc.getWeather none ++ "|" ++ MultSrc.getMarket none ++ "|" ++
      MultSrc.getNetwork none ++ "|" ++ toString ts =
      "weather_error|market_error|network_error|" ++ toString ts := by
    show ("weather_error" ++ "|" ++ "market_error" ++ "|" ++ "network_error" ++ "|" ++
      toString ts : String) = _
    rw [String.append_assoc _ ("|") (toString ts)]
    rfl
  constructor
  · unfold MultSrc.gatherEntropy
    rw [hstr]
  · unfold MultSrc.gatherEntropy
    rw [hstr]
    intro h
    have := congrArg List.length h
    rw [hlen] at this
    simp [MultSrc.initialState] at this

/-- Witness for C5 at a concrete digest function and timestamp. -/
theorem C5_all_sources_fail_witness :
    (∀ s, ((fun _ : String => List.replicate 32 0) s).length = 32) ∧
    (MultSrc.gatherEntropy (fun _ => List.replicate 32 0) none none none 0 =
      (fun _ : String => List.replicate 32 0)
        ("weather_error|market_error|network_error|" ++ toString (0 : ℤ)) ∧
     MultSrc.gatherEntropy (fun _ => List.replicate 32 0) none none none 0 ≠
      MultSrc.initialState) :=
  ⟨fun _ => by simp,
   C5_all_sources_fail (fun _ => List.replicate 32 0) (fun _ => by simp) 0⟩

theorem range256_count_one {i : ℕ} (hi : i ∈ Finset.range 256) :
    (List.range 256).count i = 1 :=
  List.count_eq_one_of_mem (List.nodup_range 256) (List.mem_range.mpr (Finset.mem_range.mp hi))

theorem logb_two_inv_256 : Real.logb 2 ((256 : ℝ)⁻¹) = -8 := by
  have h2 : (256 : ℝ) = (2 : ℝ) ^ (8 : ℕ) := by norm_num
  rw [h2, Real.logb_inv, Real.logb_pow, Real.logb_self_eq_one (by norm_num)]
  norm_num

/-- C6.  On the 256-byte buffer containing each byte value 0–255 exactly
once, the chi-square statistic is 0 and the Shannon entropy is exactly
8 bits/byte — for both the `main.go` analyzer functions and the
benchmark's `basicAnalysis`. -/
theorem C6_uniform_buffer :
    MainStats.calculateChiSquare (List.range 256) = 0 ∧
    MainStats.calculateShannonEntropy (List.range 256) = 8 ∧
    (Bench.basicAnalysis (List.range 256)).ChiSquare = 0 ∧
    (Bench.basicAnalysis (List.range 256)).ShannonEntropy = 8 := by
  have h0 : ¬ (List.range 256).length = 0 := by simp
  have hchi : ∑ i ∈ Finset.range 256,
      (((List.range 256).count i : ℚ) - ((List.range 256).length : ℚ) / 256) ^ 2 /
        (((List.range 256).length : ℚ) / 256) = 0 := by
    apply Finset.sum_eq_zero
    intro i hi
    rw [range256_count_one hi]
    norm_num
  have hterm : ∀ i ∈ Finset.range 256,
      (if 0 < (List.range 256).count i then
        -((((List.range 256).count i : ℝ) / ((List.range 256).length : ℝ)) *
          Real.logb 2 (((List.range 256).count i : ℝ) / ((List.range 256).length : ℝ)))
      else 0) = 1 / 32 := by
    intro i hi
    rw [range256_count_one hi]
    have h256 : ((List.range 256).length : ℝ) = 256 := by simp
    rw [if_pos (by norm_num), h256]
    have : (1 : ℝ) / 256 = (256 : ℝ)⁻¹ := by norm_num
    rw [Nat.cast_one, this, logb_two_inv_256]
    norm_num
  have hsh : ∑ i ∈ Finset.range 256,
      (if 0 < (List.range 256).count i then
        -((((List.range 256).count i : ℝ) / ((List.range 256).length : ℝ)) *
          Real.logb 2 (((List.range 256).count i : ℝ) / ((List.range 256).length : ℝ)))
      else 0) = 8 := by
    rw [Finset.sum_congr rfl hterm, Finset.sum_const, Finset.card_range]
    norm_num
  refine ⟨?_, ?_, ?_, ?_⟩
  · simp only [MainStats.calculateChiSquare, if_neg h0]
    exact hchi
  · simp only [MainStats.calculateShannonEntropy, if_neg h0]
    exact hsh
  · simp only [Bench.basicAnalysis, if_neg h0]
    exact hchi
  · simp only [Bench.basicAnalysis, if_neg h0]
    exact hsh

theorem bitSum_eq (b : ℕ) :
    MainStats.bitSum b =
      (MainStats.oneBitsByte b : ℤ) - ((8 : ℤ) - (MainStats.oneBitsByte b : ℤ)) := by
  have hcast : ((MainStats.oneBitsByte b : ℤ)) = ∑ i ∈ Finset.range 8,
      (if b / 2 ^ i % 2 = 1 then (1 : ℤ) else 0) := by
    unfold MainStats.oneBitsByte
    push_cast [apply_ite (fun n : ℕ => (n : ℤ))]
    rfl
  have h1 : ∀ i ∈ Finset.range 8, (if b / 2 ^ i % 2 = 1 then (1 : ℤ) else -1) =
      (if b / 2 ^ i % 2 = 1 then (1 : ℤ) else 0) -
        (if b / 2 ^ i % 2 = 1 then (0 : ℤ) else 1) := by
    intro i _
    split <;> ring
  have hone : ∀ i ∈ Finset.range 8, ((if b / 2 ^ i % 2 = 1 then (1 : ℤ) else 0) +
      (if b / 2 ^ i % 2 = 1 then (0 : ℤ) else 1)) = 1 := by
    intro i _
    split <;> ring
  have h3 : ∑ i ∈ Finset.range 8, ((if b / 2 ^ i % 2 = 1 then (1 : ℤ) else 0) +
      (if b / 2 ^ i % 2 = 1 then (0 : ℤ) else 1)) = 8 := by
    rw [Finset.sum_congr rfl hone, Finset.sum_const, Finset.card_range]
    ring
  rw [Finset.sum_add_distrib] at h3
  unfold MainStats.bitSum
  rw [Finset.sum_congr rfl h1, Finset.sum_sub_distrib, hcast]
  linarith

theorem nistS_eq_bits (data : List ℕ) :
    MainStats.nistS data =
      (MainStats.oneBits data : ℤ) -
        ((8 * data.length : ℤ) - (MainStats.oneBits data : ℤ)) := by
  induction data with
  | nil => simp [MainStats.nistS, MainStats.oneBits]
  | cons b l ih =>
    have hb := bitSum_eq b
    simp only [MainStats.nistS, MainStats.oneBits, List.map_cons, List.sum_cons,
      List.length_cons] at *
    push_cast at *
    linarith

/-- C7.  For a non-empty buffer, the monobit test's statistic `S` is the
sum of +1 per set bit and −1 per clear bit over all `8·len` bits, the
returned p-value is `erfc(|S| / √(2n))` with `n = 8·len`, and one
benchmark iteration counts the buffer as passing exactly when that
p-value is at least 0.01. -/
theorem C7_nist_monobit (data : List ℕ) (hne : data ≠ []) (passed : ℕ) :
    MainStats.nistFrequencyMonobitTest data =
      MainStats.erfc (|(MainStats.nistS data : ℝ)| /
        Real.sqrt (2 * (8 * (data.length : ℝ)))) ∧
    MainStats.nistS data =
      (MainStats.oneBits data : ℤ) -
        ((8 * data.length : ℤ) - (MainStats.oneBits data : ℤ)) ∧
    (MainStats.benchStep passed data = passed + 1 ↔
      MainStats.nistFrequencyMonobitTest data ≥ 0.01) := by
  have hn : ¬ data.length * 8 = 0 := by
    cases data with
    | nil => exact absurd rfl hne
    | cons b l => simp
  refine ⟨?_, nistS_eq_bits data, ?_⟩
  · simp only [MainStats.nistFrequencyMonobitTest, if_neg hn]
    congr 1
    rw [div_div]
    congr 1
    rw [← Real.sqrt_mul (by positivity : (0 : ℝ) ≤ ((data.length * 8 : ℕ) : ℝ))]
    congr 1
    push_cast
    ring
  · unfold MainStats.benchStep
    by_cases hp : MainStats.nistFrequencyMonobitTest data ≥ 0.01
    · rw [if_pos hp]
      exact ⟨fun _ => hp, fun _ => rfl⟩
    · rw [if_neg hp]
      constructor
      · intro h
        exact absurd h (by omega)
      · intro h
        exact absurd h hp

/-- Witness for C7 on the one-byte buffer `[5]`. -/
theorem C7_nist_monobit_witness :
    ([5] : List ℕ) ≠ [] ∧
    (MainStats.nistFrequencyMonobitTest [5] =
      MainStats.erfc (|(MainStats.nistS [5] : ℝ)| /
        Real.sqrt (2 * (8 * (([5] : List ℕ).length : ℝ)))) ∧
    MainStats.nistS [5] =
      (MainStats.oneBits [5] : ℤ) -
        ((8 * ([5] : List ℕ).length : ℤ) - (MainStats.oneBits [5] : ℤ)) ∧
    (MainStats.benchStep 0 [5] = 0 + 1 ↔
      MainStats.nistFrequencyMonobitTest [5] ≥ 0.01)) :=
  ⟨by decide, C7_nist_monobit [5] (by decide) 0⟩

theorem retryLoop_step (g : ℕ → Except String (List ℕ × ℕ × ℚ)) (maxR a k : ℕ) :
    Bench.retryLoop g maxR a (k + 1) =
      match g a with
      | Except.ok v => (Except.ok v, [])
      | Except.error e =>
        if a < maxR then
          ((Bench.retryLoop g maxR (a + 1) k).1,
            (a + 1) * 100 :: (Bench.retryLoop g maxR (a + 1) k).2)
        else (Except.error e, []) := rfl

/-- C8.  When the generator fails on every attempt, `runSingleTest`
retries exactly twice more with backoff sleeps of 100 ms then 200 ms,
then gives up: the trial's `TestResult` records the last error, is still
delivered to the results channel (it is the result the deferred block
sends), and the progress tracker is still incremented exactly once. -/
theorem C8_retry_backoff_and_failure_recorded (genName : String)
    (attempts : ℕ → Except String (List ℕ)) (durations : ℕ → ℕ)
    (testRun : ℕ) (es : ℕ → String)
    (hfail : ∀ a, attempts a = Except.error (es a)) :
    (Bench.runSingleTest genName attempts durations testRun).2.1 = [100, 200] ∧
    (Bench.runSingleTest genName attempts durations testRun).1.Error = some (es 2) ∧
    (Bench.runSingleTest genName attempts durations testRun).2.2 = 1 ∧
    (Bench.runSingleTest genName attempts durations testRun).1.Name = genName := by
  have hperf : ∀ a, Bench.performanceTest (attempts a) (durations a) =
      Except.error (es a) := by
    intro a
    rw [hfail]
    rfl
  have h1 : Bench.retryLoop (fun a => Except.error (es a)) 2 2 1 =
      (Except.error (es 2), []) := by
    show Bench.retryLoop _ 2 2 (0 + 1) = _
    rw [retryLoop_step]
    simp only []
    rw [if_neg (by norm_num : ¬ (2 : ℕ) < 2)]
  have h2 : Bench.retryLoop (fun a => Except.error (es a)) 2 1 2 =
      (Except.error (es 2), [200]) := by
    show Bench.retryLoop _ 2 1 (1 + 1) = _
    rw [retryLoop_step]
    simp only []
    rw [if_pos (by norm_num : (1 : ℕ) < 2), h1]
  have hL : Bench.retryLoop (fun a => Except.error (es a)) 2 0 3 =
      (Except.error (es 2), [100, 200]) := by
    show Bench.retryLoop _ 2 0 (2 + 1) = _
    rw [retryLoop_step]
    simp only []
    rw [if_pos (by norm_num : (0 : ℕ) < 2), h2]
  simp [Bench.runSingleTest, hperf, hL]

/-- Witness for C8 with a generator that always fails. -/
theorem C8_retry_backoff_and_failure_recorded_witness :
    (∀ a : ℕ, (fun _ : ℕ => (Except.error ("boom") : Except String (List ℕ))) a =
      Except.error ((fun _ : ℕ => "boom") a)) ∧
    ((Bench.runSingleTest ("G") (fun _ => Except.error ("boom")) (fun _ => 0) 1).2.1 =
        [100, 200] ∧
     (Bench.runSingleTest ("G") (fun _ => Except.error ("boom")) (fun _ => 0) 1).1.Error =
        some ("boom") ∧
     (Bench.runSingleTest ("G") (fun _ => Except.error ("boom")) (fun _ => 0) 1).2.2 = 1 ∧
     (Bench.runSingleTest ("G") (fun _ => Except.error ("boom")) (fun _ => 0) 1).1.Name = "G") :=
  ⟨fun _ => rfl,
   C8_retry_backoff_and_failure_recorded ("G") (fun _ => Except.error ("boom"))
     (fun _ => 0) 1 (fun _ => "boom") (fun _ => rfl)⟩

theorem lookupA_insertA (m : List (String × Bench.AggregatedResult))
    (k k' : String) (v : Bench.AggregatedResult) :
    Bench.lookupA (Bench.insertA m k v) k' =
      if k = k' then some v else Bench.lookupA m k' := by
  induction m with
  | nil => simp [Bench.insertA, Bench.lookupA]
  | cons hd t ih =>
    obtain ⟨a, b⟩ := hd
    by_cases hak : a = k
    · subst hak
      by_cases hkk : a = k'
      · subst hkk
        simp [Bench.insertA, Bench.lookupA]
      · simp [Bench.insertA, Bench.lookupA, hkk]
    · by_cases hak' : a = k'
      · subst hak'
        have hka : ¬ k = a := fun h => hak h.symm
        simp [Bench.insertA, Bench.lookupA, hak, hka]
      · simp [Bench.insertA, Bench.lookupA, hak, hak', ih]

theorem aggStep_error (a : Bench.AggregatedResult) (r : Bench.TestResult)
    (e : String) (hE : r.Error = some e) :
    Bench.aggStep a r =
      { a with TotalTests := a.TotalTests + 1, FailedTests := a.FailedTests + 1 } := by
  simp [Bench.aggStep, hE]

theorem aggPass1_all_errors (G : String) :
    ∀ (results : List Bench.TestResult) (m : List (String × Bench.AggregatedResult)),
      (∀ r ∈ results, r.Name = G → r.Error.isSome) →
      Bench.lookupA
        (results.foldl (fun m r => Bench.insertA m r.Name
          (Bench.aggStep ((Bench.lookupA m r.Name).getD (Bench.aggInit r.Name)) r)) m) G =
        match Bench.lookupA m G with
        | some a => some { a with
            TotalTests := a.TotalTests + (results.filter (fun r => r.Name == G)).length
            FailedTests := a.FailedTests + (results.filter (fun r => r.Name == G)).length }
        | none =>
          if (results.filter (fun r => r.Name == G)).length = 0 then none
          else some { Bench.aggInit G with
            TotalTests := (results.filter (fun r => r.Name == G)).length
            FailedTests := (results.filter (fun r => r.Name == G)).length } := by
  intro results
  induction results with
  | nil =>
    intro m _
    cases hm : Bench.lookupA m G with
    | none => simp [hm]
    | some a => simp [hm]
  | cons r rs ih =>
    intro m hfail
    have hr := hfail r (List.mem_cons_self r rs)
    have hrs : ∀ x ∈ rs, x.Name = G → x.Error.isSome := fun x hx =>
      hfail x (List.mem_cons_of_mem r hx)
    rw [List.foldl_cons]
    by_cases hname : r.Name = G
    · obtain ⟨e, hE⟩ := Option.isSome_iff_exists.mp (hr hname)
      have hstep := aggStep_error ((Bench.lookupA m r.Name).getD (Bench.aggInit r.Name)) r e hE
      rw [ih _ hrs]
      have hlk : Bench.lookupA
          (Bench.insertA m r.Name
            (Bench.aggStep ((Bench.lookupA m r.Name).getD (Bench.aggInit r.Name)) r)) G =
          some (Bench.aggStep ((Bench.lookupA m r.Name).getD (Bench.aggInit r.Name)) r) := by
        rw [lookupA_insertA, if_pos hname]
      rw [hlk, hstep]
      have hfilter : ((r :: rs).filter (fun x => x.Name == G)).length =
          (rs.filter (fun x => x.Name == G)).length + 1 := by
        simp [List.filter_cons, hname]
      cases hm : Bench.lookupA m G with
      | some a =>
        rw [hname] at *
        rw [hm]
        simp only [Option.getD_some, hfilter]
        cases a
        simp [Bench.AggregatedResult.mk.injEq]
        omega
      | none =>
        rw [hname] at *
        rw [hm]
        simp only [Option.getD_none, hfilter]
        rw [if_neg (by omega)]
        simp [Bench.aggInit, Bench.AggregatedResult.mk.injEq]
        omega
    · have hlk : Bench.lookupA
          (Bench.insertA m r.Name
            (Bench.aggStep ((Bench.lookupA m r.Name).getD (Bench.aggInit r.Name)) r)) G =
          Bench.lookupA m G := by
        rw [lookupA_insertA, if_neg hname]
      have hfilter : ((r :: rs).filter (fun x => x.Name == G)) =
          rs.filter (fun x => x.Name == G) := by
        simp [List.filter_cons, hname]
      rw [ih _ hrs, hlk, hfilter]

theorem lookupA_map_average (results : List Bench.TestResult) :
    ∀ (m : List (String × Bench.AggregatedResult)) (G : String),
      Bench.lookupA (m.map (fun p => (p.1, Bench.averageFor results p.1 p.2))) G =
        (Bench.lookupA m G).map (Bench.averageFor results G) := by
  intro m
  induction m with
  | nil => intro G; rfl
  | cons hd t ih =>
    intro G
    obtain ⟨a, b⟩ := hd
    by_cases h : a = G
    · subst h
      simp [Bench.lookupA]
    · simp [Bench.lookupA, h, ih]

theorem averageFor_no_success (results : List Bench.TestResult) (name : String)
    (agg : Bench.AggregatedResult) (h : agg.SuccessfulTests = 0) :
    Bench.averageFor results name agg = agg := by
  simp [Bench.averageFor, h]

/-- C9.  If every recorded result of a generator `G` carries a non-nil
error (and `G` has at least one result), `aggregateResults` still
produces an entry for `G`: its `TotalTests` is the number of `G`'s
results, `SuccessfulTests` is 0, and `FailedTests` equals `TotalTests`.
The averaging pass is skipped for it (guarded by `SuccessfulTests > 0`),
so no division by zero occurs. -/
theorem C9_failed_generator_still_aggregated (results : List Bench.TestResult)
    (G : String)
    (hfail : ∀ r ∈ results, r.Name = G → r.Error.isSome)
    (hmem : ∃ r ∈ results, r.Name = G) :
    ∃ agg, Bench.lookupA (Bench.aggregateResults results) G = some agg ∧
      agg.TotalTests = (results.filter (fun r => r.Name == G)).length ∧
      agg.SuccessfulTests = 0 ∧
      agg.FailedTests = agg.TotalTests := by
  have hcnt : ¬ (results.filter (fun r => r.Name == G)).length = 0 := by
    obtain ⟨r, hr, hname⟩ := hmem
    have hmemf : r ∈ results.filter (fun r => r.Name == G) :=
      List.mem_filter.mpr ⟨hr, by simp [hname]⟩
    intro h
    rw [List.length_eq_zero] at h
    rw [h] at hmemf
    exact absurd hmemf (List.not_mem_nil r)
  have hp1 := aggPass1_all_errors G results [] hfail
  rw [show Bench.lookupA ([] : List (String × Bench.AggregatedResult)) G = none from rfl]
    at hp1
  simp only [if_neg hcnt] at hp1
  have hpass1 : Bench.lookupA (Bench.aggPass1 results) G =
      some { Bench.aggInit G with
        TotalTests := (results.filter (fun r => r.Name == G)).length
        FailedTests := (results.filter (fun r => r.Name == G)).length } := hp1
  refine ⟨{ Bench.aggInit G with
      TotalTests := (results.filter (fun r => r.Name == G)).length
      FailedTests := (results.filter (fun r => r.Name == G)).length }, ?_, ?_, ?_, ?_⟩
  · unfold Bench.aggregateResults
    rw [lookupA_map_average, hpass1, Option.map_some']
    rw [averageFor_no_success _ _ _ (by simp [Bench.aggInit])]
  · rfl
  · simp [Bench.aggInit]
  · rfl

/-- Witness for C9 on a single-trial run where the trial failed. -/
theorem C9_failed_generator_still_aggregated_witness :
    (∀ r ∈ [failTR], r.Name = "G" → r.Error.isSome) ∧
    (∃ r ∈ [failTR], r.Name = "G") ∧
    (∃ agg, Bench.lookupA (Bench.aggregateResults [failTR]) "G" = some agg ∧
      agg.TotalTests = ([failTR].filter (fun r => r.Name == "G")).length ∧
      agg.SuccessfulTests = 0 ∧
      agg.FailedTests = agg.TotalTests) :=
  ⟨by
    intro r hr _
    rw [List.mem_singleton] at hr
    subst hr
    rfl,
   ⟨failTR, List.mem_singleton.mpr rfl, rfl⟩,
   C9_failed_generator_still_aggregated [failTR] "G"
     (by
       intro r hr _
       rw [List.mem_singleton] at hr
       subst hr
       rfl)
     ⟨failTR, List.mem_singleton.mpr rfl, rfl⟩⟩

/-- Witness for the amended C2 at a concrete state with counter 5. -/
theorem C2_reseed_state_witness :
    (WeatherDraft.reseed hmC [4, 5, 6] 777 ⟨List.replicate 32 1, 5, 9, 3⟩).bytesGenerated = 0 ∧
    (WeatherDraft.reseed hmC [4, 5, 6] 777 ⟨List.replicate 32 1, 5, 9, 3⟩).counter =
      (⟨List.replicate 32 1, 5, 9, 3⟩ : WeatherDraft.WState).counter ∧
    (WeatherDraft.reseed hmC [4, 5, 6] 777 ⟨List.replicate 32 1, 5, 9, 3⟩).lastReseed = 777 ∧
    (WeatherDraft.reseed hmC [4, 5, 6] 777 ⟨List.replicate 32 1, 5, 9, 3⟩).state =
      hmC (⟨List.replicate 32 1, 5, 9, 3⟩ : WeatherDraft.WState).state [4, 5, 6] :=
  C2_reseed_state hmC [4, 5, 6] 777 ⟨List.replicate 32 1, 5, 9, 3⟩

/-- Witness for C10 at the concrete one-byte buffer `[42]`. -/
theorem C10_autocorrelation_nan_witness :
    (Bench.basicAnalysis [42]).Autocorrelation = GoFloat.nan ∧
    (Bench.basicAnalysis []).Autocorrelation = GoFloat.finite 0 :=
  C10_autocorrelation_nan 42
